import Mathlib

/-!
Verification of the iOS packaging pipeline of the FlaxEngine editor cooker
(`Source/Editor/Cooker/Platform/iOS/iOSPlatformTools.cpp`).

The development shallowly embeds the pure content of `iOSPlatformTools`:
the texture-format downgrade table (`GetTextureFormat`), the native-code
classifier (`IsNativeCodeFile`), the bundle-identifier derivation and
validation, the per-file project-graph building loop of `OnPostProcess`
(object-ID allocation, the seven accumulated PBX sections, the
`install_name_tool` fix-up queue) and the orchestration order of the
whole post-process step.  Engine string/filesystem primitives that the
translation unit calls but whose code lives outside this repository
(`String::Replace`, `String::ToLower`, `StringUtils::IsAlnum`,
`FileSystem::GetExtension`, `StringUtils::GetFileName`, `Guid::New`,
`Platform::CreateProcess`) are modelled from the spec, as indicated by
their doc comments.
-/

/-- Prefix test on character lists parameterised by a character comparison,
used to model substring search of the engine `String::Replace` with either
`StringSearchCase::CaseSensitive` or `StringSearchCase::IgnoreCase`. -/
def isPrefixBy (eqc : Char → Char → Bool) : List Char → List Char → Bool
  | [], _ => true
  | _ :: _, [] => false
  | a :: as, b :: bs => eqc a b && isPrefixBy eqc as bs

/-- Fuel-driven worker for replace-all: scans left to right, on a match emits
the replacement and continues after the matched occurrence (the replacement
text is not rescanned).  The fuel is always initialised to the length of the
scanned list, which suffices because every step consumes at least one
character. -/
def replaceFuel (eqc : Char → Char → Bool) (n : Char) (ns repl : List Char) :
    Nat → List Char → List Char
  | _, [] => []
  | 0, s => s
  | fuel + 1, c :: rest =>
    if isPrefixBy eqc (n :: ns) (c :: rest) then
      repl ++ replaceFuel eqc n ns repl fuel (List.drop ns.length rest)
    else
      c :: replaceFuel eqc n ns repl fuel rest

/-- Modelled from the spec: the engine `String::Replace(search, replace)`
(code not in this repository), replacing every occurrence of a non-empty
search text left to right; an empty search text changes nothing. -/
def replaceList (eqc : Char → Char → Bool) (needle repl s : List Char) : List Char :=
  match needle with
  | [] => s
  | n :: ns => replaceFuel eqc n ns repl s.length s

/-- Case-sensitive `String::Replace` on embedded strings. -/
def strReplace (s needle repl : String) : String :=
  ⟨replaceList (fun a b => a == b) needle.data repl.data s.data⟩

/-- Modelled from the spec: `String::Replace` with `StringSearchCase::IgnoreCase`
(code not in this repository): occurrences are matched up to ASCII case. -/
def strReplaceCI (s needle repl : String) : String :=
  ⟨replaceList (fun a b => a.toLower == b.toLower) needle.data repl.data s.data⟩

/-- Modelled from the spec: the engine `String::ToLower` (code not in this
repository), lower-casing every character; `Char.toLower` lowers the basic
latin letters `A`-`Z` and keeps every other character. -/
def toLowerStr (s : String) : String :=
  ⟨s.data.map Char.toLower⟩

/-- Suffix test on embedded strings, modelling `String::EndsWith`. -/
def strEndsWith (s suffix : String) : Bool :=
  isPrefixBy (fun a b => a == b) suffix.data.reverse s.data.reverse

/-- Modelled from the spec: `StringUtils::GetFileName` (code not in this
repository): the part of the path after the last directory separator. -/
def getFileName (path : String) : String :=
  ⟨(path.data.reverse.takeWhile (fun c => c ≠ '/')).reverse⟩

/-- Modelled from the spec: `FileSystem::GetExtension` (code not in this
repository): the text after the last dot of the file name, without the dot,
or the empty string when the file name holds no dot. -/
def getExtension (path : String) : String :=
  let name := (getFileName path).data
  if name.contains '.' then ⟨(name.reverse.takeWhile (fun c => c ≠ '.')).reverse⟩
  else ""

/-- Name cleaning shared by `GetAppName` and the identifier derivation in
`OnPostProcess` (lines 143-150): strips spaces, dots and hyphens by three
successive `Replace` calls with the empty replacement. -/
def cleanName (s : String) : String :=
  strReplace (strReplace (strReplace s " " "") "." "") "-" ""

/-- The bundle-identifier derivation of `OnPostProcess` (lines 141-153):
substitute the cleaned product and company names for the
case-insensitively matched tokens and lower-case the whole result. -/
def resolveAppIdentifier (template productName companyName : String) : String :=
  let productClean := cleanName productName
  let companyClean := cleanName companyName
  let s := strReplaceCI template "${PROJECT_NAME}" productClean
  let s := strReplaceCI s "${COMPANY_NAME}" companyClean
  toLowerStr s

/-- Modelled from the spec: `StringUtils::IsAlnum` (code not in this
repository), accepting the ASCII letters and digits. -/
def isAlnumChar (c : Char) : Bool :=
  (65 ≤ c.toNat && c.toNat ≤ 90) || (97 ≤ c.toNat && c.toNat ≤ 122) ||
    (48 ≤ c.toNat && c.toNat ≤ 57)

/-- The per-character validity test of `OnPostProcess` line 157: a character
passes when it is an underscore, a dot, or alphanumeric. -/
def isValidIdentifierChar (c : Char) : Bool :=
  c.toNat == 95 || c.toNat == 46 || isAlnumChar c

/-- The character class the spec names for a valid identifier: `[a-z0-9._]`. -/
def specValidChar (c : Char) : Bool :=
  (97 ≤ c.toNat && c.toNat ≤ 122) || (48 ≤ c.toNat && c.toNat ≤ 57) ||
    c.toNat == 46 || c.toNat == 95

/-- Modelled from the spec: the engine `PixelFormat` enumeration (header not
in this repository) — the closed set of block-compression formats the
downgrader consumes, the uncompressed formats it produces, and the remaining
commonly used formats, which the downgrader passes through unchanged. -/
inductive PixelFormat where
  | Unknown
  | R32G32B32A32_Typeless
  | R32G32B32A32_Float
  | R32G32B32A32_UInt
  | R32G32B32A32_SInt
  | R32G32B32_Typeless
  | R32G32B32_Float
  | R32G32B32_UInt
  | R32G32B32_SInt
  | R16G16B16A16_Typeless
  | R16G16B16A16_Float
  | R16G16B16A16_UNorm
  | R16G16B16A16_UInt
  | R16G16B16A16_SNorm
  | R16G16B16A16_SInt
  | R32G32_Typeless
  | R32G32_Float
  | R32G32_UInt
  | R32G32_SInt
  | R10G10B10A2_Typeless
  | R10G10B10A2_UNorm
  | R10G10B10A2_UInt
  | R11G11B10_Float
  | R8G8B8A8_Typeless
  | R8G8B8A8_UNorm
  | R8G8B8A8_UNorm_sRGB
  | R8G8B8A8_UInt
  | R8G8B8A8_SNorm
  | R8G8B8A8_SInt
  | R16G16_Typeless
  | R16G16_Float
  | R16G16_UNorm
  | R16G16_UInt
  | R16G16_SNorm
  | R16G16_SInt
  | R32_Typeless
  | D32_Float
  | R32_Float
  | R32_UInt
  | R32_SInt
  | R8G8_Typeless
  | R8G8_UNorm
  | R8G8_UInt
  | R8G8_SNorm
  | R8G8_SInt
  | R16_Typeless
  | R16_Float
  | D16_UNorm
  | R16_UNorm
  | R16_UInt
  | R16_SNorm
  | R16_SInt
  | R8_Typeless
  | R8_UNorm
  | R8_UInt
  | R8_SNorm
  | R8_SInt
  | A8_UNorm
  | R1_UNorm
  | R9G9B9E5_SharedExp
  | B5G6R5_UNorm
  | B5G5R5A1_UNorm
  | B8G8R8A8_UNorm
  | B8G8R8X8_UNorm
  | B8G8R8A8_Typeless
  | B8G8R8A8_UNorm_sRGB
  | B8G8R8X8_Typeless
  | B8G8R8X8_UNorm_sRGB
  | BC1_Typeless
  | BC1_UNorm
  | BC1_UNorm_sRGB
  | BC2_Typeless
  | BC2_UNorm
  | BC2_UNorm_sRGB
  | BC3_Typeless
  | BC3_UNorm
  | BC3_UNorm_sRGB
  | BC4_Typeless
  | BC4_UNorm
  | BC4_SNorm
  | BC5_Typeless
  | BC5_UNorm
  | BC5_SNorm
  | BC6H_Typeless
  | BC6H_Uf16
  | BC6H_Sf16
  | BC7_Typeless
  | BC7_UNorm
  | BC7_UNorm_sRGB
  deriving DecidableEq, Fintype

/-- Modelled from the spec: `PixelFormatExtensions::IsCompressedBC` (code not
in this repository) — membership in the closed set of block-compression
(BC1-BC7) formats. -/
def isCompressedBC : PixelFormat → Bool
  | .BC1_Typeless | .BC1_UNorm | .BC1_UNorm_sRGB
  | .BC2_Typeless | .BC2_UNorm | .BC2_UNorm_sRGB
  | .BC3_Typeless | .BC3_UNorm | .BC3_UNorm_sRGB
  | .BC4_Typeless | .BC4_UNorm | .BC4_SNorm
  | .BC5_Typeless | .BC5_UNorm | .BC5_SNorm
  | .BC6H_Typeless | .BC6H_Uf16 | .BC6H_Sf16
  | .BC7_Typeless | .BC7_UNorm | .BC7_UNorm_sRGB => true
  | _ => false

/-- `iOSPlatformTools::GetTextureFormat` (lines 65-113): block-compressed
formats are downgraded to uncompressed equivalents by the switch table,
every other format passes through unchanged. -/
def getTextureFormat (format : PixelFormat) : PixelFormat :=
  if isCompressedBC format then
    match format with
    | .BC1_Typeless | .BC2_Typeless | .BC3_Typeless => .R8G8B8A8_Typeless
    | .BC1_UNorm | .BC2_UNorm | .BC3_UNorm => .R8G8B8A8_UNorm
    | .BC1_UNorm_sRGB | .BC2_UNorm_sRGB | .BC3_UNorm_sRGB => .R8G8B8A8_UNorm_sRGB
    | .BC4_Typeless => .R8_Typeless
    | .BC4_UNorm => .R8_UNorm
    | .BC4_SNorm => .R8_SNorm
    | .BC5_Typeless => .R16G16_Typeless
    | .BC5_UNorm => .R16G16_UNorm
    | .BC5_SNorm => .R16G16_SNorm
    | .BC7_Typeless | .BC6H_Typeless => .R16G16B16A16_Typeless
    | .BC7_UNorm | .BC6H_Uf16 | .BC6H_Sf16 => .R16G16B16A16_Float
    | .BC7_UNorm_sRGB => .R16G16B16A16_UNorm
    | _ => format
  else format

/-- `iOSPlatformTools::IsNativeCodeFile` (lines 115-119): a file is native
code when its extension is empty or equals `dylib`. -/
def isNativeCodeFile (file : String) : Bool :=
  (getExtension file).data.isEmpty || getExtension file == "dylib"

/-- The tag of a `PBXBuildFile` line: `in Frameworks` (line 215),
`in Embed Frameworks` (line 216) or `in Resources` (line 232). -/
inductive BuildFileTag where
  | inFrameworks
  | inEmbedFrameworks
  | inResources
  deriving DecidableEq

/-- One `PBXBuildFile` line: `{0} /* {1} in ... */ = ... fileRef = {2} ...`
with its subject ID `{0}`, the artifact name `{1}`, the referenced
file-reference ID `{2}`, the tag, and whether the line carries the
`CodeSignOnCopy` attribute (line 216 only). -/
structure BuildFileEntry where
  id : Nat
  name : String
  fileRef : Nat
  tag : BuildFileTag
  codeSignOnCopy : Bool
  deriving DecidableEq

/-- One membership line `{0} /* {1} ... */,` of a group or build-phase
section, holding the referenced ID and the artifact name. -/
structure MemberEntry where
  id : Nat
  name : String
  deriving DecidableEq

/-- One `PBXFileReference` line (lines 218 and 233): subject ID, artifact
name, `lastKnownFileType` and the rooted path. -/
structure FileRefEntry where
  id : Nat
  name : String
  fileType : String
  path : String
  deriving DecidableEq

/-- One fix-up command as enqueued on lines 224-227: the executable name and
the formatted argument string. -/
structure FixupCommand where
  fileName : String
  arguments : String
  deriving DecidableEq

/-- The seven accumulated auto-generated sections of the XCode project
(`configReplaceMap` entries initialised empty on lines 189-195), modelled as
structured entry lists in accumulation order. -/
structure ConfigSections where
  pbxBuildFile : List BuildFileEntry
  pbxCopyFiles : List MemberEntry
  pbxFileReference : List FileRefEntry
  pbxFrameworksBuildPhase : List MemberEntry
  pbxFrameworksGroup : List MemberEntry
  pbxFilesGroup : List MemberEntry
  pbxResourcesGroup : List MemberEntry
  deriving DecidableEq

/-- State of the file loop of `OnPostProcess` (lines 204-237): the sections,
the queue of issued fix-up commands, and the allocation counter of the
ID generator.  Modelled from the spec: `Guid::New().ToString(N).Left(24)`
(engine code not in this repository) yields a fresh 24-character ID on every
call, with collisions treated as impossible; each call is embedded as taking
the next counter value. -/
structure GraphState where
  sections : ConfigSections
  fixups : List FixupCommand
  nextId : Nat
  deriving DecidableEq

/-- The skip test of line 207: OS metadata files and the root data folder
marker are excluded. -/
def excludedName (name : String) : Bool :=
  name == ".DS_Store" || name == "FlaxGame"

/-- The body of the file loop of `OnPostProcess` (lines 204-237) for a single
discovered file.  `rel` models `FileSystem::ConvertAbsolutePathToRelative`
bound to the data output path. -/
def processFile (rel : String → String) (st : GraphState) (file : String) : GraphState :=
  let name := getFileName file
  if excludedName name then st
  else
    let fileId := st.nextId
    let projectPath := rel file
    if strEndsWith name ".dylib" then
      let frameworkId := st.nextId + 1
      let frameworkEmbedId := st.nextId + 2
      { sections :=
          { pbxBuildFile := st.sections.pbxBuildFile ++
              [⟨frameworkId, name, fileId, .inFrameworks, false⟩,
               ⟨frameworkEmbedId, name, fileId, .inEmbedFrameworks, true⟩],
            pbxCopyFiles := st.sections.pbxCopyFiles ++ [⟨frameworkEmbedId, name⟩],
            pbxFileReference := st.sections.pbxFileReference ++
              [⟨fileId, name, "compiled.mach-o.dylib", "FlaxGame/Data/" ++ projectPath⟩],
            pbxFrameworksBuildPhase := st.sections.pbxFrameworksBuildPhase ++
              [⟨frameworkId, name⟩],
            pbxFrameworksGroup := st.sections.pbxFrameworksGroup ++ [⟨fileId, name⟩],
            pbxFilesGroup := st.sections.pbxFilesGroup,
            pbxResourcesGroup := st.sections.pbxResourcesGroup },
        fixups := st.fixups ++
          [⟨"install_name_tool", "-id \"@rpath/" ++ name ++ "\" \"" ++ file ++ "\""⟩],
        nextId := st.nextId + 3 }
    else
      let fileRefId := st.nextId + 1
      { sections :=
          { pbxBuildFile := st.sections.pbxBuildFile ++
              [⟨fileRefId, name, fileId, .inResources, false⟩],
            pbxCopyFiles := st.sections.pbxCopyFiles,
            pbxFileReference := st.sections.pbxFileReference ++
              [⟨fileId, name, "file", "Data/" ++ projectPath⟩],
            pbxFrameworksBuildPhase := st.sections.pbxFrameworksBuildPhase,
            pbxFrameworksGroup := st.sections.pbxFrameworksGroup,
            pbxFilesGroup := st.sections.pbxFilesGroup ++ [⟨fileId, name⟩],
            pbxResourcesGroup := st.sections.pbxResourcesGroup ++ [⟨fileRefId, name⟩] },
        fixups := st.fixups,
        nextId := st.nextId + 2 }

/-- The empty initial loop state: all sections empty, no fix-up commands,
no IDs allocated yet. -/
def initialGraphState : GraphState :=
  ⟨⟨[], [], [], [], [], [], []⟩, [], 0⟩

/-- The whole file loop of `OnPostProcess` over the discovered file list in
scan order. -/
def buildProjectGraph (rel : String → String) (files : List String) : GraphState :=
  files.foldl (processFile rel) initialGraphState

/-- Whether a file survives the exclusion test of line 207. -/
def isArtifactFile (file : String) : Bool :=
  !excludedName (getFileName file)

/-- Whether a file is classified as a dynamic library by the loop
(line 211): it survives exclusion and its name ends in `.dylib`. -/
def isDylibFile (file : String) : Bool :=
  isArtifactFile file && strEndsWith (getFileName file) ".dylib"

/-- Whether a file is a resource artifact: it survives exclusion and is not
classified as a dynamic library. -/
def isResourceFile (file : String) : Bool :=
  isArtifactFile file && !strEndsWith (getFileName file) ".dylib"

/-- Number of discovered files surviving the exclusion test. -/
def countArtifacts (files : List String) : Nat :=
  (files.filter isArtifactFile).length

/-- Number of discovered files classified as dynamic libraries. -/
def countDylibs (files : List String) : Nat :=
  (files.filter isDylibFile).length

/-- Number of discovered files classified as resources. -/
def countResources (files : List String) : Nat :=
  (files.filter isResourceFile).length

/-- The IDs standing as the subject of a file-reference or build-file
entry: the leading `{0}` of each `PBXBuildFile` and `PBXFileReference`
line. -/
def subjectIds (s : ConfigSections) : List Nat :=
  s.pbxBuildFile.map (fun e => e.id) ++ s.pbxFileReference.map (fun e => e.id)

/-- The IDs used in membership or cross-reference position: the `fileRef`
field of every `PBXBuildFile` line and the IDs of the membership lines of
the copy-files phase, frameworks build phase, frameworks group, files group
and resources group. -/
def referencedIds (s : ConfigSections) : List Nat :=
  s.pbxBuildFile.map (fun e => e.fileRef) ++
    (s.pbxCopyFiles ++ s.pbxFrameworksBuildPhase ++ s.pbxFrameworksGroup ++
      s.pbxFilesGroup ++ s.pbxResourcesGroup).map (fun e => e.id)

/-- The configuration and external-world inputs of one `OnPostProcess` run:
the identifier template and names from the settings, the discovered file
list, the relative-path resolver, the skip-packaging flag, the outcomes of
the two fallible external file operations, and an oracle giving the exit
code of each external fix-up process call in queue order.  Modelled from
the spec: `Platform::CreateProcess` (engine code not in this repository) is
a blocking external call returning an exit code, which line 227 discards. -/
structure PipelineConfig where
  appIdentifierTemplate : String
  productName : String
  companyName : String
  files : List String
  rel : String → String
  skipPackaging : Bool
  copyDirectoryFails : Bool
  replaceInFileFails : Bool
  fixupExit : Nat → Int

/-- Observable steps of one `OnPostProcess` run, in execution order.  The
two report steps model the `LOG(Error, ...)` calls of lines 159 and 165;
`runFixup` records the executed external command together with the exit
code the external call returned. -/
inductive Step where
  | reportInvalidIdentifier (offending : String)
  | reportEmptyIdentifier
  | deployProject
  | moveLicenses
  | runFixup (cmd : FixupCommand) (exitCode : Int)
  | substituteProject
  | packageFiles
  deriving DecidableEq

/-- A `Step` with the external exit code erased, for comparing traces of
runs that differ only in external fix-up outcomes. -/
inductive StepShape where
  | reportInvalidIdentifier (offending : String)
  | reportEmptyIdentifier
  | deployProject
  | moveLicenses
  | runFixup (cmd : FixupCommand)
  | substituteProject
  | packageFiles
  deriving DecidableEq

/-- Erase the exit code of a step. -/
def stepShape : Step → StepShape
  | .reportInvalidIdentifier s => .reportInvalidIdentifier s
  | .reportEmptyIdentifier => .reportEmptyIdentifier
  | .deployProject => .deployProject
  | .moveLicenses => .moveLicenses
  | .runFixup cmd _ => .runFixup cmd
  | .substituteProject => .substituteProject
  | .packageFiles => .packageFiles

/-- `iOSPlatformTools::OnPostProcess` (lines 132-270) as a step trace plus
its boolean result (`true` = failure, as in the source).  Order follows the
source: identifier derivation and validation (141-168), project template
deployment (171-175), license renames (199-200), the file loop with its
interleaved fix-up calls (204-237), `ReplaceInFile` substitution and its
failure check (238-244), the skip-packaging early success (251-253), and
`GameCooker::PackageFiles` (254). -/
def onPostProcess (cfg : PipelineConfig) : List Step × Bool :=
  let appIdentifier :=
    resolveAppIdentifier cfg.appIdentifierTemplate cfg.productName cfg.companyName
  if !(appIdentifier.data.all isValidIdentifierChar) then
    ([.reportInvalidIdentifier appIdentifier], true)
  else if appIdentifier.data.isEmpty then
    ([.reportEmptyIdentifier], true)
  else if cfg.copyDirectoryFails then
    ([.deployProject], true)
  else
    let st := buildProjectGraph cfg.rel cfg.files
    let fixSteps := st.fixups.enum.map (fun p => Step.runFixup p.2 (cfg.fixupExit p.1))
    let steps := [Step.deployProject, Step.moveLicenses] ++ fixSteps ++ [Step.substituteProject]
    if cfg.replaceInFileFails then (steps, true)
    else if cfg.skipPackaging then (steps, false)
    else (steps ++ [Step.packageFiles], false)

/-- Interpretation variant of a pixel format, read from its suffix. -/
inductive FormatVariant where
  | typeless
  | unorm
  | unormSrgb
  | snorm
  | floatV
  | uintV
  | sintV
  | other
  deriving DecidableEq

/-- Modelled from the spec: the signedness/interpretation variant of each
format (`PixelFormatExtensions` is not in this repository), read from the
format suffix; the `Uf16`/`Sf16` BC6H variants and the shared-exponent
format are floating-point. -/
def formatVariant : PixelFormat → FormatVariant
  | .Unknown => .other
  | .R32G32B32A32_Typeless | .R32G32B32_Typeless | .R16G16B16A16_Typeless
  | .R32G32_Typeless | .R10G10B10A2_Typeless | .R8G8B8A8_Typeless
  | .R16G16_Typeless | .R32_Typeless | .R8G8_Typeless | .R16_Typeless
  | .R8_Typeless | .B8G8R8A8_Typeless | .B8G8R8X8_Typeless
  | .BC1_Typeless | .BC2_Typeless | .BC3_Typeless | .BC4_Typeless
  | .BC5_Typeless | .BC6H_Typeless | .BC7_Typeless => .typeless
  | .R32G32B32A32_Float | .R32G32B32_Float | .R16G16B16A16_Float
  | .R32G32_Float | .R11G11B10_Float | .R16G16_Float | .D32_Float
  | .R32_Float | .R16_Float | .R9G9B9E5_SharedExp
  | .BC6H_Uf16 | .BC6H_Sf16 => .floatV
  | .R16G16B16A16_UNorm | .R10G10B10A2_UNorm | .R8G8B8A8_UNorm
  | .R16G16_UNorm | .R8G8_UNorm | .D16_UNorm | .R16_UNorm | .R8_UNorm
  | .A8_UNorm | .R1_UNorm | .B5G6R5_UNorm | .B5G5R5A1_UNorm
  | .B8G8R8A8_UNorm | .B8G8R8X8_UNorm
  | .BC1_UNorm | .BC2_UNorm | .BC3_UNorm | .BC4_UNorm | .BC5_UNorm
  | .BC7_UNorm => .unorm
  | .R8G8B8A8_UNorm_sRGB | .B8G8R8A8_UNorm_sRGB | .B8G8R8X8_UNorm_sRGB
  | .BC1_UNorm_sRGB | .BC2_UNorm_sRGB | .BC3_UNorm_sRGB
  | .BC7_UNorm_sRGB => .unormSrgb
  | .R16G16B16A16_SNorm | .R8G8B8A8_SNorm | .R16G16_SNorm | .R8G8_SNorm
  | .R16_SNorm | .R8_SNorm | .BC4_SNorm | .BC5_SNorm => .snorm
  | .R32G32B32A32_UInt | .R32G32B32_UInt | .R16G16B16A16_UInt
  | .R32G32_UInt | .R10G10B10A2_UInt | .R8G8B8A8_UInt | .R16G16_UInt
  | .R32_UInt | .R8G8_UInt | .R16_UInt | .R8_UInt => .uintV
  | .R32G32B32A32_SInt | .R32G32B32_SInt | .R16G16B16A16_SInt
  | .R32G32_SInt | .R8G8B8A8_SInt | .R16G16_SInt | .R32_SInt
  | .R8G8_SInt | .R16_SInt | .R8_SInt => .sintV

/-- Modelled from the spec: the number of colour channels of each format
(`PixelFormatExtensions` is not in this repository); block-compressed
formats count their decoded channels — BC1-BC3 and BC7 are four-channel,
BC4 single-channel, BC5 two-channel, BC6H three-channel RGB. -/
def channelCount : PixelFormat → Nat
  | .Unknown => 0
  | .R32G32B32A32_Typeless | .R32G32B32A32_Float | .R32G32B32A32_UInt
  | .R32G32B32A32_SInt | .R16G16B16A16_Typeless | .R16G16B16A16_Float
  | .R16G16B16A16_UNorm | .R16G16B16A16_UInt | .R16G16B16A16_SNorm
  | .R16G16B16A16_SInt | .R10G10B10A2_Typeless | .R10G10B10A2_UNorm
  | .R10G10B10A2_UInt | .R8G8B8A8_Typeless | .R8G8B8A8_UNorm
  | .R8G8B8A8_UNorm_sRGB | .R8G8B8A8_UInt | .R8G8B8A8_SNorm
  | .R8G8B8A8_SInt | .B5G5R5A1_UNorm | .B8G8R8A8_UNorm | .B8G8R8X8_UNorm
  | .B8G8R8A8_Typeless | .B8G8R8A8_UNorm_sRGB | .B8G8R8X8_Typeless
  | .B8G8R8X8_UNorm_sRGB
  | .BC1_Typeless | .BC1_UNorm | .BC1_UNorm_sRGB
  | .BC2_Typeless | .BC2_UNorm | .BC2_UNorm_sRGB
  | .BC3_Typeless | .BC3_UNorm | .BC3_UNorm_sRGB
  | .BC7_Typeless | .BC7_UNorm | .BC7_UNorm_sRGB => 4
  | .R32G32B32_Typeless | .R32G32B32_Float | .R32G32B32_UInt
  | .R32G32B32_SInt | .R11G11B10_Float | .R9G9B9E5_SharedExp
  | .B5G6R5_UNorm
  | .BC6H_Typeless | .BC6H_Uf16 | .BC6H_Sf16 => 3
  | .R32G32_Typeless | .R32G32_Float | .R32G32_UInt | .R32G32_SInt
  | .R16G16_Typeless | .R16G16_Float | .R16G16_UNorm | .R16G16_UInt
  | .R16G16_SNorm | .R16G16_SInt | .R8G8_Typeless | .R8G8_UNorm
  | .R8G8_UInt | .R8G8_SNorm | .R8G8_SInt
  | .BC5_Typeless | .BC5_UNorm | .BC5_SNorm => 2
  | .R32_Typeless | .D32_Float | .R32_Float | .R32_UInt | .R32_SInt
  | .R16_Typeless | .R16_Float | .D16_UNorm | .R16_UNorm | .R16_UInt
  | .R16_SNorm | .R16_SInt | .R8_Typeless | .R8_UNorm | .R8_UInt
  | .R8_SNorm | .R8_SInt | .A8_UNorm | .R1_UNorm
  | .BC4_Typeless | .BC4_UNorm | .BC4_SNorm => 1

/-- Modelled from the spec: the per-channel bit depth of each format
(`PixelFormatExtensions` is not in this repository); block-compressed
formats carry their decoded channel depth — BC1-BC5 and BC7 decode to
8-bit channels, the high-dynamic-range BC6H to 16-bit half floats. -/
def bitsPerChannel : PixelFormat → Nat
  | .Unknown => 0
  | .R32G32B32A32_Typeless | .R32G32B32A32_Float | .R32G32B32A32_UInt
  | .R32G32B32A32_SInt | .R32G32B32_Typeless | .R32G32B32_Float
  | .R32G32B32_UInt | .R32G32B32_SInt | .R32G32_Typeless | .R32G32_Float
  | .R32G32_UInt | .R32G32_SInt | .R32_Typeless | .D32_Float | .R32_Float
  | .R32_UInt | .R32_SInt => 32
  | .R16G16B16A16_Typeless | .R16G16B16A16_Float | .R16G16B16A16_UNorm
  | .R16G16B16A16_UInt | .R16G16B16A16_SNorm | .R16G16B16A16_SInt
  | .R16G16_Typeless | .R16G16_Float | .R16G16_UNorm | .R16G16_UInt
  | .R16G16_SNorm | .R16G16_SInt | .R16_Typeless | .R16_Float | .D16_UNorm
  | .R16_UNorm | .R16_UInt | .R16_SNorm | .R16_SInt
  | .BC6H_Typeless | .BC6H_Uf16 | .BC6H_Sf16 => 16
  | .R10G10B10A2_Typeless | .R10G10B10A2_UNorm | .R10G10B10A2_UInt => 10
  | .R11G11B10_Float => 11
  | .R9G9B9E5_SharedExp => 9
  | .B5G6R5_UNorm | .B5G5R5A1_UNorm => 5
  | .R1_UNorm => 1
  | .R8G8B8A8_Typeless | .R8G8B8A8_UNorm | .R8G8B8A8_UNorm_sRGB
  | .R8G8B8A8_UInt | .R8G8B8A8_SNorm | .R8G8B8A8_SInt | .R8G8_Typeless
  | .R8G8_UNorm | .R8G8_UInt | .R8G8_SNorm | .R8G8_SInt | .R8_Typeless
  | .R8_UNorm | .R8_UInt | .R8_SNorm | .R8_SInt | .A8_UNorm
  | .B8G8R8A8_UNorm | .B8G8R8X8_UNorm | .B8G8R8A8_Typeless
  | .B8G8R8A8_UNorm_sRGB | .B8G8R8X8_Typeless | .B8G8R8X8_UNorm_sRGB
  | .BC1_Typeless | .BC1_UNorm | .BC1_UNorm_sRGB
  | .BC2_Typeless | .BC2_UNorm | .BC2_UNorm_sRGB
  | .BC3_Typeless | .BC3_UNorm | .BC3_UNorm_sRGB
  | .BC4_Typeless | .BC4_UNorm | .BC4_SNorm
  | .BC5_Typeless | .BC5_UNorm | .BC5_SNorm
  | .BC7_Typeless | .BC7_UNorm | .BC7_UNorm_sRGB => 8

/-- The claim's class of 4-channel 8-bit block-compressed formats, derived
from the modelled channel count and depth. -/
def is4Ch8BitBC (f : PixelFormat) : Bool :=
  isCompressedBC f && channelCount f == 4 && bitsPerChannel f == 8

/-- The claim's class of single- or two-channel block-compressed formats. -/
def isLowChannelBC (f : PixelFormat) : Bool :=
  isCompressedBC f && (channelCount f == 1 || channelCount f == 2)

/-- Modelled from the spec: the high-dynamic-range block-compressed formats
are the BC6H family (the only HDR block-compression format). -/
def isHDRBC : PixelFormat → Bool
  | .BC6H_Typeless | .BC6H_Uf16 | .BC6H_Sf16 => true
  | _ => false

/-- Whether a format is unsigned-normalized (plain or sRGB). -/
def isUNormFormat (f : PixelFormat) : Bool :=
  formatVariant f == .unorm || formatVariant f == .unormSrgb

/-- Whether a format is floating-point. -/
def isFloatFormat (f : PixelFormat) : Bool :=
  formatVariant f == .floatV

/-- The BC1/BC2/BC3 family. -/
def isBC123 : PixelFormat → Bool
  | .BC1_Typeless | .BC1_UNorm | .BC1_UNorm_sRGB
  | .BC2_Typeless | .BC2_UNorm | .BC2_UNorm_sRGB
  | .BC3_Typeless | .BC3_UNorm | .BC3_UNorm_sRGB => true
  | _ => false

/-- The BC4 family. -/
def isBC4 : PixelFormat → Bool
  | .BC4_Typeless | .BC4_UNorm | .BC4_SNorm => true
  | _ => false

/-- The BC5 family. -/
def isBC5 : PixelFormat → Bool
  | .BC5_Typeless | .BC5_UNorm | .BC5_SNorm => true
  | _ => false

/-- The BC6H/BC7 families, which the switch of lines 98-106 maps to the
16-bit-per-channel `R16G16B16A16` formats. -/
def isBC67 : PixelFormat → Bool
  | .BC6H_Typeless | .BC6H_Uf16 | .BC6H_Sf16
  | .BC7_Typeless | .BC7_UNorm | .BC7_UNorm_sRGB => true
  | _ => false

/-- The statement of claim C6 as written: 4-channel 8-bit block formats map
to a 4-channel 8-bit unsigned-normalized format; single/two-channel block
formats map to formats of matching channel count, bit depth and signedness;
HDR block formats map to a 16-bit-per-channel float or unsigned-normalized
format. -/
def claimC6Statement : Prop :=
  (∀ f, is4Ch8BitBC f = true →
    channelCount (getTextureFormat f) = 4 ∧ bitsPerChannel (getTextureFormat f) = 8 ∧
      isUNormFormat (getTextureFormat f) = true) ∧
  (∀ f, isLowChannelBC f = true →
    channelCount (getTextureFormat f) = channelCount f ∧
      bitsPerChannel (getTextureFormat f) = bitsPerChannel f ∧
      formatVariant (getTextureFormat f) = formatVariant f) ∧
  (∀ f, isHDRBC f = true →
    bitsPerChannel (getTextureFormat f) = 16 ∧
      (isFloatFormat (getTextureFormat f) = true ∨ isUNormFormat (getTextureFormat f) = true))

theorem mem_replaceFuel_single {x c : Char} :
    ∀ (fuel : Nat) (s : List Char), s.length ≤ fuel →
      c ∈ replaceFuel (fun a b => a == b) x [] [] fuel s → c ∈ s ∧ c ≠ x := by
  intro fuel
  induction fuel with
  | zero =>
    intro s hs hc
    cases s with
    | nil => simp [replaceFuel] at hc
    | cons a rest => simp at hs
  | succ fuel ih =>
    intro s hs hc
    cases s with
    | nil => simp [replaceFuel] at hc
    | cons a rest =>
      simp only [replaceFuel, isPrefixBy, Bool.and_true] at hc
      by_cases hxa : (x == a) = true
      · rw [if_pos hxa] at hc
        simp only [List.drop_zero, List.nil_append] at hc
        have := ih rest (by simpa using Nat.le_of_succ_le_succ hs) hc
        exact ⟨List.mem_cons_of_mem a this.1, this.2⟩
      · rw [if_neg hxa] at hc
        rcases List.mem_cons.mp hc with hca | hca
        · subst hca
          refine ⟨List.mem_cons_self c rest, ?_⟩
          intro hcx
          exact hxa (by simp [hcx])
        · have := ih rest (by simpa using Nat.le_of_succ_le_succ hs) hca
          exact ⟨List.mem_cons_of_mem a this.1, this.2⟩

theorem mem_strReplace_single {x c : Char} {s : String} (hx : [x] = (⟨[x]⟩ : String).data)
    (h : c ∈ (strReplace s ⟨[x]⟩ "").data) : c ∈ s.data ∧ c ≠ x := by
  unfold strReplace replaceList at h
  rw [← hx] at h
  exact mem_replaceFuel_single s.data.length s.data (Nat.le_refl _) h

theorem cleanName_no_stripped (s : String) (c : Char) (h : c ∈ (cleanName s).data) :
    c ≠ ' ' ∧ c ≠ '.' ∧ c ≠ '-' := by
  unfold cleanName at h
  have h3 := mem_strReplace_single (x := '-') rfl h
  have h2 := mem_strReplace_single (x := '.') rfl h3.1
  have h1 := mem_strReplace_single (x := ' ') rfl h2.1
  exact ⟨h1.2, h2.2, h3.2⟩

theorem char_toNat_ofNat_of_lt (n : Nat) (h : n < 55296) : (Char.ofNat n).toNat = n := by
  rw [Char.ofNat, dif_pos (Or.inl h : n.isValidChar)]
  rfl

theorem toLower_not_upper (c : Char) :
    ¬(65 ≤ (Char.toLower c).toNat ∧ (Char.toLower c).toNat ≤ 90) := by
  unfold Char.toLower
  by_cases h : c.toNat ≥ 65 ∧ c.toNat ≤ 90
  · rw [if_pos h, char_toNat_ofNat_of_lt _ (by omega)]
    omega
  · rw [if_neg h]
    omega

theorem isValid_eq_spec (c : Char) (h : ¬(65 ≤ c.toNat ∧ c.toNat ≤ 90)) :
    isValidIdentifierChar c = specValidChar c := by
  unfold isValidIdentifierChar specValidChar isAlnumChar
  rw [Bool.eq_iff_iff]
  simp only [Bool.or_eq_true, Bool.and_eq_true, decide_eq_true_eq, Nat.beq_eq_true_eq]
  omega

theorem resolve_not_upper (template productName companyName : String) (c : Char)
    (h : c ∈ (resolveAppIdentifier template productName companyName).data) :
    ¬(65 ≤ c.toNat ∧ c.toNat ≤ 90) := by
  unfold resolveAppIdentifier toLowerStr at h
  simp only [List.mem_map] at h
  obtain ⟨a, _, ha⟩ := h
  rw [← ha]
  exact toLower_not_upper a

theorem isPrefixBy_eq_append {p l : List Char}
    (h : isPrefixBy (fun a b => a == b) p l = true) : ∃ r, l = p ++ r := by
  induction p generalizing l with
  | nil => exact ⟨l, rfl⟩
  | cons a as ih =>
    cases l with
    | nil => simp [isPrefixBy] at h
    | cons b bs =>
      simp only [isPrefixBy, Bool.and_eq_true, beq_iff_eq] at h
      obtain ⟨r, hr⟩ := ih h.2
      exact ⟨r, by rw [h.1, hr]; rfl⟩

theorem endsWith_dylib_ext (file : String)
    (h : strEndsWith (getFileName file) ".dylib" = true) : getExtension file = "dylib" := by
  unfold strEndsWith at h
  obtain ⟨r, hr⟩ := isPrefixBy_eq_append h
  have hrev : (getFileName file).data.reverse =
      'b' :: 'i' :: 'l' :: 'y' :: 'd' :: '.' :: r := hr
  have hmem : '.' ∈ (getFileName file).data := by
    rw [← List.mem_reverse, hrev]
    simp
  unfold getExtension
  rw [if_pos (by simpa using hmem), hrev]
  rw [List.takeWhile_cons_of_pos (by decide), List.takeWhile_cons_of_pos (by decide),
    List.takeWhile_cons_of_pos (by decide), List.takeWhile_cons_of_pos (by decide),
    List.takeWhile_cons_of_pos (by decide), List.takeWhile_cons_of_neg (by decide)]
  rfl

theorem processFile_nextId (rel : String → String) (st : GraphState) (file : String) :
    (processFile rel st file).nextId =
      st.nextId + (if isDylibFile file then 3 else if isResourceFile file then 2 else 0) := by
  unfold processFile isDylibFile isResourceFile isArtifactFile
  by_cases hex : excludedName (getFileName file) <;>
    by_cases hdy : strEndsWith (getFileName file) ".dylib" <;>
      simp [hex, hdy]

theorem foldl_nextId (rel : String → String) (files : List String) :
    ∀ st : GraphState, ((files.foldl (processFile rel) st).nextId =
      st.nextId + 2 * countResources files + 3 * countDylibs files) := by
  induction files with
  | nil => intro st; simp [countResources, countDylibs]
  | cons f fs ih =>
    intro st
    rw [List.foldl_cons, ih, processFile_nextId]
    unfold countResources countDylibs
    by_cases hdy : isDylibFile f
    · have hre : isResourceFile f = false := by
        unfold isDylibFile at hdy
        rcases Bool.and_eq_true _ _ |>.mp hdy with ⟨h1, h2⟩
        simp [isResourceFile, h1, h2]
      simp [List.filter_cons, hdy, hre]
      omega
    · by_cases hre : isResourceFile f
      · simp [List.filter_cons, hdy, hre]
        omega
      · simp [List.filter_cons, hdy, hre]

theorem artifact_split (files : List String) :
    countArtifacts files = countResources files + countDylibs files := by
  induction files with
  | nil => simp [countArtifacts, countResources, countDylibs]
  | cons f fs ih =>
    unfold countArtifacts countResources countDylibs at ih ⊢
    by_cases hex : isArtifactFile f <;>
      by_cases hdy : strEndsWith (getFileName f) ".dylib" <;>
        simp [List.filter_cons, isDylibFile, isResourceFile, hex, hdy, ih] <;> omega

theorem processFile_fixups (rel : String → String) (st : GraphState) (file : String) :
    (processFile rel st file).fixups = st.fixups ++
      (if isDylibFile file then
        [⟨"install_name_tool",
          "-id \"@rpath/" ++ getFileName file ++ "\" \"" ++ file ++ "\""⟩]
       else ([] : List FixupCommand)) := by
  unfold processFile isDylibFile isArtifactFile
  by_cases hex : excludedName (getFileName file) <;>
    by_cases hdy : strEndsWith (getFileName file) ".dylib" <;>
      simp [hex, hdy]

theorem foldl_fixups (rel : String → String) (files : List String) :
    ∀ st : GraphState, (files.foldl (processFile rel) st).fixups =
      st.fixups ++ (files.filter isDylibFile).map (fun f =>
        ⟨"install_name_tool", "-id \"@rpath/" ++ getFileName f ++ "\" \"" ++ f ++ "\""⟩) := by
  induction files with
  | nil => intro st; simp
  | cons f fs ih =>
    intro st
    rw [List.foldl_cons, ih, processFile_fixups]
    by_cases hdy : isDylibFile f <;>
      simp [List.filter_cons, hdy]

/-- Invariant of the file loop: every ID below the allocation counter is the
subject of exactly one file-reference or build-file entry, and no other ID
is the subject of any. -/
def subjectCountInv (st : GraphState) : Prop :=
  ∀ i, (subjectIds st.sections).count i = if i < st.nextId then 1 else 0

/-- Invariant of the file loop: every referenced ID is the subject of some
entry. -/
def refsCovered (st : GraphState) : Prop :=
  ∀ i ∈ referencedIds st.sections, i ∈ subjectIds st.sections

theorem processFile_inv (rel : String → String) (st : GraphState) (file : String)
    (h1 : subjectCountInv st) (h2 : refsCovered st) :
    subjectCountInv (processFile rel st file) ∧ refsCovered (processFile rel st file) := by
  unfold subjectCountInv at h1 ⊢
  unfold refsCovered at h2 ⊢
  unfold processFile
  by_cases hex : excludedName (getFileName file)
  · simp only [hex, if_true]
    exact ⟨h1, h2⟩
  · simp only [hex, Bool.false_eq_true, if_false]
    by_cases hdy : strEndsWith (getFileName file) ".dylib"
    · simp only [hdy, if_true]
      constructor
      · intro i
        have hold := h1 i
        rw [subjectIds, List.count_append] at hold
        simp only [subjectIds, List.map_append, List.count_append, List.map_cons,
          List.map_nil, List.count_cons, List.count_nil, beq_iff_eq]
        split_ifs at hold ⊢ <;> omega
      · intro i hi
        simp only [referencedIds, subjectIds, List.map_append, List.mem_append,
          List.map_cons, List.map_nil, List.mem_cons, List.not_mem_nil, or_false] at hi ⊢
        simp only [referencedIds, subjectIds, List.map_append, List.mem_append] at h2
        rcases hi with (hbf | hn | hn) |
          (((((hcopy | hn2) | hfp | hn1) | hfg | hn0) | hfile) | hres)
        · exact (h2 i (by tauto)).elim (fun h => Or.inl (Or.inl h)) (fun h => Or.inr (Or.inl h))
        · exact Or.inr (Or.inr hn)
        · exact Or.inr (Or.inr hn)
        · exact (h2 i (by tauto)).elim (fun h => Or.inl (Or.inl h)) (fun h => Or.inr (Or.inl h))
        · exact Or.inl (Or.inr (Or.inr hn2))
        · exact (h2 i (by tauto)).elim (fun h => Or.inl (Or.inl h)) (fun h => Or.inr (Or.inl h))
        · exact Or.inl (Or.inr (Or.inl hn1))
        · exact (h2 i (by tauto)).elim (fun h => Or.inl (Or.inl h)) (fun h => Or.inr (Or.inl h))
        · exact Or.inr (Or.inr hn0)
        · exact (h2 i (by tauto)).elim (fun h => Or.inl (Or.inl h)) (fun h => Or.inr (Or.inl h))
        · exact (h2 i (by tauto)).elim (fun h => Or.inl (Or.inl h)) (fun h => Or.inr (Or.inl h))
    · simp only [hdy, Bool.false_eq_true, if_false]
      constructor
      · intro i
        have hold := h1 i
        rw [subjectIds, List.count_append] at hold
        simp only [subjectIds, List.map_append, List.count_append, List.map_cons,
          List.map_nil, List.count_cons, List.count_nil, beq_iff_eq]
        split_ifs at hold ⊢ <;> omega
      · intro i hi
        simp only [referencedIds, subjectIds, List.map_append, List.mem_append,
          List.map_cons, List.map_nil, List.mem_cons, List.not_mem_nil, or_false] at hi ⊢
        simp only [referencedIds, subjectIds, List.map_append, List.mem_append] at h2
        rcases hi with (hbf | hn) | (((hcopy | hfp) | hfg) | hfile | hn0) | hres | hn1
        · exact (h2 i (by tauto)).elim (fun h => Or.inl (Or.inl h)) (fun h => Or.inr (Or.inl h))
        · exact Or.inr (Or.inr hn)
        · exact (h2 i (by tauto)).elim (fun h => Or.inl (Or.inl h)) (fun h => Or.inr (Or.inl h))
        · exact (h2 i (by tauto)).elim (fun h => Or.inl (Or.inl h)) (fun h => Or.inr (Or.inl h))
        · exact (h2 i (by tauto)).elim (fun h => Or.inl (Or.inl h)) (fun h => Or.inr (Or.inl h))
        · exact (h2 i (by tauto)).elim (fun h => Or.inl (Or.inl h)) (fun h => Or.inr (Or.inl h))
        · exact Or.inr (Or.inr hn0)
        · exact (h2 i (by tauto)).elim (fun h => Or.inl (Or.inl h)) (fun h => Or.inr (Or.inl h))
        · exact Or.inl (Or.inr hn1)

theorem foldl_inv (rel : String → String) (files : List String) :
    ∀ st : GraphState, subjectCountInv st ∧ refsCovered st →
      subjectCountInv (files.foldl (processFile rel) st) ∧
        refsCovered (files.foldl (processFile rel) st) := by
  induction files with
  | nil => intro st h; exact h
  | cons f fs ih =>
    intro st h
    rw [List.foldl_cons]
    exact ih _ (processFile_inv rel st f h.1 h.2)

theorem buildProjectGraph_inv (rel : String → String) (files : List String) :
    subjectCountInv (buildProjectGraph rel files) ∧
      refsCovered (buildProjectGraph rel files) := by
  unfold buildProjectGraph
  refine foldl_inv rel files initialGraphState ⟨?_, ?_⟩
  · intro i
    simp [subjectIds, initialGraphState]
  · intro i hi
    simp [referencedIds, initialGraphState] at hi


/-- C1 as stated is false: for the single discovered resource artifact
`data.bin` (N = 1 artifacts, M = 0 dynamic libraries) the loop allocates
two ObjectIDs (the file-reference ID of line 209 and the build-file ID of
line 231), not (N-M) + 3M = 1. -/
theorem claimC1_counterexample :
    countArtifacts ["data.bin"] = 1 ∧ countDylibs ["data.bin"] = 0 ∧
      (buildProjectGraph (fun p => p) ["data.bin"]).nextId ≠
        (countArtifacts ["data.bin"] - countDylibs ["data.bin"]) +
          3 * countDylibs ["data.bin"] := by
  decide

/-- C1 (amended): for every list of N discovered artifacts (after
exclusions) of which M are classified as dynamic libraries, the
project-graph building step allocates exactly 2(N-M) + 3M distinct
ObjectIDs: two IDs (file-reference, build-file) per resource artifact and
three IDs (file, framework, embed) per dynamic-library artifact. -/
theorem claimC1_amended (rel : String → String) (files : List String) :
    (buildProjectGraph rel files).nextId =
      2 * countResources files + 3 * countDylibs files ∧
    countArtifacts files = countResources files + countDylibs files := by
  constructor
  · rw [buildProjectGraph, foldl_nextId]
    simp [initialGraphState]
  · exact artifact_split files

/-- C2: for every list of discovered artifacts, every ObjectID appearing in
a membership or cross-reference line (copy-files phase, frameworks build
phase, frameworks group, files group, resources group, fileRef fields) also
appears exactly once as the subject of a file-reference or build-file
entry; the builder never emits a dangling reference and never two entries
with the same subject ID. -/
theorem claimC2_theorem (rel : String → String) (files : List String) :
    (∀ i ∈ referencedIds (buildProjectGraph rel files).sections,
      (subjectIds (buildProjectGraph rel files).sections).count i = 1) ∧
    (subjectIds (buildProjectGraph rel files).sections).Nodup := by
  obtain ⟨h1, h2⟩ := buildProjectGraph_inv rel files
  constructor
  · intro i hi
    have hmem := h2 i hi
    have hpos : 0 < (subjectIds (buildProjectGraph rel files).sections).count i :=
      List.count_pos_iff.mpr hmem
    have hc := h1 i
    by_cases hlt : i < (buildProjectGraph rel files).nextId
    · rw [hc, if_pos hlt]
    · rw [hc, if_neg hlt] at hpos
      omega
  · rw [List.nodup_iff_count_le_one]
    intro a
    rw [h1 a]
    split_ifs <;> omega

/-- Witness for C2 at the artifact list [lib.dylib, data.bin]: ID 0 (the
file-reference ID of the dylib) is referenced and is the subject of exactly
one entry. -/
theorem claimC2_witness :
    (subjectIds (buildProjectGraph (fun p => p) ["lib.dylib", "data.bin"]).sections).count 0 = 1 :=
  (claimC2_theorem (fun p => p) ["lib.dylib", "data.bin"]).1 0 (by decide)

/-- C3: the texture-format downgrade is total and idempotent: downgrading a
block-compressed format twice equals downgrading it once, and every format
outside the block-compressed set passes through unchanged. -/
theorem claimC3_theorem :
    ∀ f : PixelFormat,
      (isCompressedBC f = true →
        getTextureFormat (getTextureFormat f) = getTextureFormat f) ∧
      (isCompressedBC f = false → getTextureFormat f = f) := by
  decide

/-- Witness for C3: idempotence at BC1_UNorm and pass-through at
R8G8B8A8_UNorm. -/
theorem claimC3_witness :
    getTextureFormat (getTextureFormat PixelFormat.BC1_UNorm) =
        getTextureFormat PixelFormat.BC1_UNorm ∧
      getTextureFormat PixelFormat.R8G8B8A8_UNorm = PixelFormat.R8G8B8A8_UNorm :=
  ⟨(claimC3_theorem PixelFormat.BC1_UNorm).1 (by decide),
   (claimC3_theorem PixelFormat.R8G8B8A8_UNorm).2 (by decide)⟩

/-- C4: bundle-identifier resolution strips spaces, dots and hyphens from
the names (first conjunct: no stripped character survives cleaning),
substitutes the cleaned values into the tokens with case-insensitive token
matching (third conjunct uses differently cased tokens) and lower-cases the
result; on the spec scenario the resolved identifier is
com.acmeinc.mygame1. -/
theorem claimC4_theorem :
    (∀ (s : String) (c : Char), c ∈ (cleanName s).data →
      c ≠ ' ' ∧ c ≠ '.' ∧ c ≠ '-') ∧
    resolveAppIdentifier "com.${COMPANY_NAME}.${PROJECT_NAME}" "My.Game-1" "Acme Inc" =
      "com.acmeinc.mygame1" ∧
    resolveAppIdentifier "com.${Company_Name}.${project_name}" "My.Game-1" "Acme Inc" =
      "com.acmeinc.mygame1" :=
  ⟨fun s c h => cleanName_no_stripped s c h, by decide, by decide⟩

/-- Witness for C4: the character M of the cleaned product name
My.Game-1 is none of the stripped characters. -/
theorem claimC4_witness : 'M' ≠ ' ' ∧ 'M' ≠ '.' ∧ 'M' ≠ '-' :=
  claimC4_theorem.1 "My.Game-1" 'M' (by decide)

/-- C6 as stated is false: BC5_UNorm is a two-channel block-compressed
format with 8-bit channels, yet the switch of line 95 downgrades it to
R16G16_UNorm, whose channels are 16-bit — the bit depth is not preserved
(likewise BC7, a 4-channel 8-bit format, maps to a 16-bit float format). -/
theorem claimC6_counterexample : ¬ claimC6Statement := by
  intro h
  exact absurd ((h.2.1 PixelFormat.BC5_UNorm (by decide)).2.1) (by decide)

/-- C6 (amended): BC1-BC3 map to the 4-channel 8-bit format of matching
variant; BC4 maps to the single-channel 8-bit format of matching
signedness; BC5 maps to the two-channel 16-bit format of matching
signedness (depth widened from 8 to 16 bits); BC6H and BC7 map to 4-channel
16-bit formats — typeless variants stay typeless, BC7_UNorm_sRGB maps to
unsigned-normalized, and the remaining variants map to float; every format
outside the block-compressed set passes through unchanged. -/
theorem claimC6_amended :
    (∀ f, isBC123 f = true → channelCount (getTextureFormat f) = 4 ∧
      bitsPerChannel (getTextureFormat f) = 8 ∧
      formatVariant (getTextureFormat f) = formatVariant f) ∧
    (∀ f, isBC4 f = true → channelCount (getTextureFormat f) = 1 ∧
      bitsPerChannel (getTextureFormat f) = 8 ∧
      formatVariant (getTextureFormat f) = formatVariant f) ∧
    (∀ f, isBC5 f = true → channelCount (getTextureFormat f) = 2 ∧
      bitsPerChannel (getTextureFormat f) = 16 ∧
      formatVariant (getTextureFormat f) = formatVariant f) ∧
    (∀ f, isBC67 f = true → channelCount (getTextureFormat f) = 4 ∧
      bitsPerChannel (getTextureFormat f) = 16 ∧
      formatVariant (getTextureFormat f) =
        (if formatVariant f = FormatVariant.typeless then FormatVariant.typeless
         else if f = PixelFormat.BC7_UNorm_sRGB then FormatVariant.unorm
         else FormatVariant.floatV)) ∧
    (∀ f, isCompressedBC f = false → getTextureFormat f = f) := by
  decide

/-- Witness for C6 (amended): the BC1_UNorm and BC5_UNorm rows of the
mapping. -/
theorem claimC6_witness :
    channelCount (getTextureFormat PixelFormat.BC1_UNorm) = 4 ∧
      bitsPerChannel (getTextureFormat PixelFormat.BC5_UNorm) = 16 :=
  ⟨(claimC6_amended.1 PixelFormat.BC1_UNorm (by decide)).1,
   (claimC6_amended.2.2.1 PixelFormat.BC5_UNorm (by decide)).2.1⟩

/-- C7: exactly one identity-rewrite fix-up command is issued per
dynamic-library artifact, in scan order, with command install_name_tool
and the -id @rpath arguments (first conjunct characterizes the whole
queue); on the spec scenario [lib.dylib, data.bin] exactly one fix-up
command is issued, targeting lib.dylib, and data.bin appears in no
frameworks-related section and only with the in-Resources tag in the
build-file section. -/
theorem claimC7_theorem (rel : String → String) (files : List String) :
    ((buildProjectGraph rel files).fixups =
      (files.filter isDylibFile).map (fun f =>
        ⟨"install_name_tool",
          "-id \"@rpath/" ++ getFileName f ++ "\" \"" ++ f ++ "\""⟩)) ∧
    ((buildProjectGraph (fun p => p) ["lib.dylib", "data.bin"]).fixups =
      [⟨"install_name_tool", "-id \"@rpath/lib.dylib\" \"lib.dylib\""⟩]) ∧
    (((buildProjectGraph (fun p => p) ["lib.dylib", "data.bin"]).sections.pbxCopyFiles ++
        (buildProjectGraph (fun p => p)
          ["lib.dylib", "data.bin"]).sections.pbxFrameworksBuildPhase ++
        (buildProjectGraph (fun p => p)
          ["lib.dylib", "data.bin"]).sections.pbxFrameworksGroup).all
      (fun e => e.name != "data.bin") = true) ∧
    ((buildProjectGraph (fun p => p) ["lib.dylib", "data.bin"]).sections.pbxBuildFile.all
      (fun e => e.name != "data.bin" || (e.tag == BuildFileTag.inResources)) = true) := by
  refine ⟨?_, by decide, by decide, by decide⟩
  rw [buildProjectGraph, foldl_fixups]
  simp [initialGraphState]

/-- C10: the native-code classifier accepts every file with an empty
extension and every file with extension dylib, but the project-graph loop
classifies an artifact as a dynamic library only when its name ends in
.dylib; hence every extension-less (non-excluded) file is emitted into the
resources sections (files group and resources group grow; the frameworks
and copy-files sections do not) and yields no identity-rewrite fix-up
command. -/
theorem claimC10_theorem :
    (∀ file : String, getExtension file = "" → isNativeCodeFile file = true) ∧
    (∀ file : String, getExtension file = "dylib" → isNativeCodeFile file = true) ∧
    (∀ (file : String) (rel : String → String) (st : GraphState),
      getExtension file = "" → excludedName (getFileName file) = false →
        (processFile rel st file).fixups = st.fixups ∧
        (processFile rel st file).sections.pbxCopyFiles = st.sections.pbxCopyFiles ∧
        (processFile rel st file).sections.pbxFrameworksBuildPhase =
          st.sections.pbxFrameworksBuildPhase ∧
        (processFile rel st file).sections.pbxFrameworksGroup =
          st.sections.pbxFrameworksGroup ∧
        (processFile rel st file).sections.pbxFilesGroup =
          st.sections.pbxFilesGroup ++ [⟨st.nextId, getFileName file⟩] ∧
        (processFile rel st file).sections.pbxResourcesGroup =
          st.sections.pbxResourcesGroup ++ [⟨st.nextId + 1, getFileName file⟩]) := by
  refine ⟨?_, ?_, ?_⟩
  · intro file h
    unfold isNativeCodeFile
    rw [h]
    rfl
  · intro file h
    unfold isNativeCodeFile
    rw [h]
    rfl
  · intro file rel st hext hex
    have hnd : strEndsWith (getFileName file) ".dylib" = false := by
      cases hval : strEndsWith (getFileName file) ".dylib"
      · rfl
      · have hdy := endsWith_dylib_ext file hval
        rw [hext] at hdy
        exact absurd hdy (by decide)
    simp [processFile, hex, hnd]

/-- Witness for C10 at the dot-less file name libtest: classified as
native code, yet processed into the resources sections with no fix-up. -/
theorem claimC10_witness :
    isNativeCodeFile "libtest" = true ∧
      (processFile (fun p => p) initialGraphState "libtest").fixups = [] :=
  ⟨claimC10_theorem.1 "libtest" (by decide),
   (claimC10_theorem.2.2 "libtest" (fun p => p) initialGraphState (by decide) (by decide)).1⟩

theorem mem_append_middle {α : Type} (a : α) (l1 l2 l3 : List α) (h : a ∈ l2) :
    a ∈ l1 ++ l2 ++ l3 :=
  List.mem_append.mpr (Or.inl (List.mem_append.mpr (Or.inr h)))

/-- C9: whenever the skip-packaging flag is set, the generic file-packaging
step is never invoked, and a successful run ends immediately after the
template-substitution step (the substitution step is the last step of the
trace). -/
theorem claimC9_theorem (cfg : PipelineConfig) (hskip : cfg.skipPackaging = true) :
    Step.packageFiles ∉ (onPostProcess cfg).1 ∧
      ((onPostProcess cfg).2 = false →
        (onPostProcess cfg).1.getLast? = some Step.substituteProject) := by
  unfold onPostProcess
  by_cases hall : (resolveAppIdentifier cfg.appIdentifierTemplate cfg.productName
      cfg.companyName).data.all isValidIdentifierChar
  · simp only [hall, Bool.not_true, Bool.false_eq_true, if_false]
    by_cases hemp : (resolveAppIdentifier cfg.appIdentifierTemplate cfg.productName
        cfg.companyName).data.isEmpty
    · simp only [hemp, if_true]
      exact ⟨by simp, fun h => by simp at h⟩
    · simp only [hemp, Bool.false_eq_true, if_false]
      by_cases hcopy : cfg.copyDirectoryFails
      · simp only [hcopy, if_true]
        exact ⟨by simp, fun h => by simp at h⟩
      · simp only [hcopy, Bool.false_eq_true, if_false]
        by_cases hrepl : cfg.replaceInFileFails
        · simp only [hrepl, if_true]
          exact ⟨by simp, fun h => by simp at h⟩
        · simp only [hrepl, Bool.false_eq_true, if_false, hskip, if_true]
          exact ⟨by simp, fun _ => List.getLast?_concat _⟩
  · rw [Bool.not_eq_true] at hall
    simp only [hall, Bool.not_false, if_true]
    exact ⟨by simp, fun h => by simp at h⟩

/-- Witness for C9 on a concrete configuration with the skip flag set: no
packaging step runs and the trace ends with the substitution step. -/
theorem claimC9_witness :
    Step.packageFiles ∉ (onPostProcess
      { appIdentifierTemplate := "com.app", productName := "P", companyName := "C",
        files := [], rel := fun p => p, skipPackaging := true,
        copyDirectoryFails := false, replaceInFileFails := false,
        fixupExit := fun _ => 0 }).1 ∧
    (onPostProcess
      { appIdentifierTemplate := "com.app", productName := "P", companyName := "C",
        files := [], rel := fun p => p, skipPackaging := true,
        copyDirectoryFails := false, replaceInFileFails := false,
        fixupExit := fun _ => 0 }).1.getLast? = some Step.substituteProject :=
  ⟨(claimC9_theorem _ rfl).1, (claimC9_theorem _ rfl).2 (by decide)⟩

/-- C8: the exit code returned by an identity-rewrite external call is
recorded in the trace but never influences the run: replacing the exit-code
oracle changes neither the boolean result nor the shape of the step trace
(all subsequent steps still execute), and whenever the pipeline reaches the
file loop, every enqueued fix-up command is executed with whatever exit
code the external call returns. -/
theorem claimC8_theorem (cfg : PipelineConfig) (g : Nat → Int) :
    ((onPostProcess { cfg with fixupExit := g }).2 = (onPostProcess cfg).2) ∧
    ((onPostProcess { cfg with fixupExit := g }).1.map stepShape =
      (onPostProcess cfg).1.map stepShape) ∧
    (∀ p ∈ (buildProjectGraph cfg.rel cfg.files).fixups.enum,
      (resolveAppIdentifier cfg.appIdentifierTemplate cfg.productName
          cfg.companyName).data.all isValidIdentifierChar = true →
      ¬(resolveAppIdentifier cfg.appIdentifierTemplate cfg.productName
          cfg.companyName).data.isEmpty →
      cfg.copyDirectoryFails = false →
      Step.runFixup p.2 (cfg.fixupExit p.1) ∈ (onPostProcess cfg).1) := by
  unfold onPostProcess
  by_cases hall : (resolveAppIdentifier cfg.appIdentifierTemplate cfg.productName
      cfg.companyName).data.all isValidIdentifierChar
  · simp only [hall, Bool.not_true, Bool.false_eq_true, if_false]
    by_cases hemp : (resolveAppIdentifier cfg.appIdentifierTemplate cfg.productName
        cfg.companyName).data.isEmpty
    · simp only [hemp, if_true]
      exact ⟨trivial, trivial, fun p hp _ hne _ => absurd trivial hne⟩
    · simp only [hemp, Bool.false_eq_true, if_false]
      by_cases hcopy : cfg.copyDirectoryFails
      · simp only [hcopy, if_true]
        exact ⟨trivial, trivial, fun p hp _ _ hc => absurd hc (by decide)⟩
      · simp only [hcopy, Bool.false_eq_true, if_false]
        refine ⟨?_, ?_, ?_⟩
        · by_cases hrepl : cfg.replaceInFileFails <;>
            by_cases hskip : cfg.skipPackaging <;>
              simp [hrepl, hskip]
        · by_cases hrepl : cfg.replaceInFileFails <;>
            by_cases hskip : cfg.skipPackaging <;>
              simp [hrepl, hskip, stepShape, List.map_append, List.map_map, Function.comp]
        · intro p hp _ _ _
          have hmem : Step.runFixup p.2 (cfg.fixupExit p.1) ∈
              [Step.deployProject, Step.moveLicenses] ++
                (buildProjectGraph cfg.rel cfg.files).fixups.enum.map
                  (fun q => Step.runFixup q.2 (cfg.fixupExit q.1)) ++
                [Step.substituteProject] :=
            mem_append_middle _ _ _ _
              (List.mem_map_of_mem (fun q => Step.runFixup q.2 (cfg.fixupExit q.1)) hp)
          by_cases hrepl : cfg.replaceInFileFails
          · simp only [hrepl, if_true]
            exact hmem
          · simp only [hrepl, Bool.false_eq_true, if_false]
            by_cases hskip : cfg.skipPackaging
            · simp only [hskip, if_true]
              exact hmem
            · simp only [hskip, Bool.false_eq_true, if_false]
              exact List.mem_append.mpr (Or.inl hmem)
  · rw [Bool.not_eq_true] at hall
    simp only [hall, Bool.not_false, if_true]
    exact ⟨trivial, trivial, fun p hp ha _ _ => absurd ha (by decide)⟩

/-- Witness for C8 at a one-dylib configuration whose external call returns
exit code 7: the fix-up step carrying that exit code is in the trace. -/
theorem claimC8_witness :
    Step.runFixup ⟨"install_name_tool", "-id \"@rpath/lib.dylib\" \"lib.dylib\""⟩ 7 ∈
      (onPostProcess
        { appIdentifierTemplate := "com.app", productName := "P", companyName := "C",
          files := ["lib.dylib"], rel := fun p => p, skipPackaging := false,
          copyDirectoryFails := false, replaceInFileFails := false,
          fixupExit := fun _ => 7 }).1 :=
  (claimC8_theorem
    { appIdentifierTemplate := "com.app", productName := "P", companyName := "C",
      files := ["lib.dylib"], rel := fun p => p, skipPackaging := false,
      copyDirectoryFails := false, replaceInFileFails := false,
      fixupExit := fun _ => 7 } (fun _ => 0)).2.2
    (0, ⟨"install_name_tool", "-id \"@rpath/lib.dylib\" \"lib.dylib\""⟩)
    (by decide) (by decide) (by decide) rfl

/-- C5: bundle-identifier resolution fails — the run reports failure having
performed neither the template deployment nor the substitution step — if
and only if the substituted and lower-cased identifier contains a character
outside [a-z0-9._] or is empty; and when an invalid character is present
the offending string is reported (the trace is exactly the error report
carrying the resolved identifier). -/
theorem claimC5_theorem (cfg : PipelineConfig) :
    (((∃ c ∈ (resolveAppIdentifier cfg.appIdentifierTemplate cfg.productName
          cfg.companyName).data, specValidChar c = false) ∨
        (resolveAppIdentifier cfg.appIdentifierTemplate cfg.productName
          cfg.companyName).data = []) ↔
      ((onPostProcess cfg).2 = true ∧
        Step.deployProject ∉ (onPostProcess cfg).1 ∧
        Step.substituteProject ∉ (onPostProcess cfg).1)) ∧
    ((∃ c ∈ (resolveAppIdentifier cfg.appIdentifierTemplate cfg.productName
        cfg.companyName).data, specValidChar c = false) →
      (onPostProcess cfg).1 =
        [Step.reportInvalidIdentifier (resolveAppIdentifier
          cfg.appIdentifierTemplate cfg.productName cfg.companyName)]) := by
  have hnotup := resolve_not_upper cfg.appIdentifierTemplate cfg.productName cfg.companyName
  have hiff : ((resolveAppIdentifier cfg.appIdentifierTemplate cfg.productName
      cfg.companyName).data.all isValidIdentifierChar = true) ↔
      ∀ c ∈ (resolveAppIdentifier cfg.appIdentifierTemplate cfg.productName
        cfg.companyName).data, specValidChar c = true := by
    rw [List.all_eq_true]
    constructor
    · intro h c hc
      rw [← isValid_eq_spec c (hnotup c hc)]
      exact h c hc
    · intro h c hc
      rw [isValid_eq_spec c (hnotup c hc)]
      exact h c hc
  unfold onPostProcess
  by_cases hall : (resolveAppIdentifier cfg.appIdentifierTemplate cfg.productName
      cfg.companyName).data.all isValidIdentifierChar
  · have hno : ¬ ∃ c ∈ (resolveAppIdentifier cfg.appIdentifierTemplate cfg.productName
        cfg.companyName).data, specValidChar c = false := by
      rintro ⟨c, hc, hf⟩
      have hv := hiff.mp hall c hc
      rw [hv] at hf
      exact absurd hf (by decide)
    simp only [hall, Bool.not_true, Bool.false_eq_true, if_false]
    by_cases hemp : (resolveAppIdentifier cfg.appIdentifierTemplate cfg.productName
        cfg.companyName).data.isEmpty
    · simp only [hemp, if_true]
      refine ⟨⟨fun _ => ⟨trivial, by simp, by simp⟩,
        fun _ => Or.inr (List.isEmpty_iff.mp hemp)⟩, fun hb => absurd hb hno⟩
    · simp only [hemp, Bool.false_eq_true, if_false]
      have hne : ¬ (resolveAppIdentifier cfg.appIdentifierTemplate cfg.productName
          cfg.companyName).data = [] := by
        intro h
        exact hemp (by simp [h])
      have hlhsFalse : ¬ ((∃ c ∈ (resolveAppIdentifier cfg.appIdentifierTemplate
          cfg.productName cfg.companyName).data, specValidChar c = false) ∨
          (resolveAppIdentifier cfg.appIdentifierTemplate cfg.productName
            cfg.companyName).data = []) := fun h => h.elim hno hne
      by_cases hcopy : cfg.copyDirectoryFails
      · simp only [hcopy, if_true]
        refine ⟨⟨fun hl => absurd hl hlhsFalse, ?_⟩, fun hb => absurd hb hno⟩
        rintro ⟨_, hdep, _⟩
        exact (hdep (by simp)).elim
      · simp only [hcopy, Bool.false_eq_true, if_false]
        by_cases hrepl : cfg.replaceInFileFails
        · simp only [hrepl, if_true]
          refine ⟨⟨fun hl => absurd hl hlhsFalse, ?_⟩, fun hb => absurd hb hno⟩
          rintro ⟨_, hdep, _⟩
          exact (hdep (by simp)).elim
        · simp only [hrepl, Bool.false_eq_true, if_false]
          by_cases hskip : cfg.skipPackaging
          · simp only [hskip, if_true]
            refine ⟨⟨fun hl => absurd hl hlhsFalse, ?_⟩, fun hb => absurd hb hno⟩
            rintro ⟨hres, _, _⟩
            simp at hres
          · simp only [hskip, Bool.false_eq_true, if_false]
            refine ⟨⟨fun hl => absurd hl hlhsFalse, ?_⟩, fun hb => absurd hb hno⟩
            rintro ⟨hres, _, _⟩
            simp at hres
  · rw [Bool.not_eq_true] at hall
    simp only [hall, Bool.not_false, if_true]
    have hbad : ∃ c ∈ (resolveAppIdentifier cfg.appIdentifierTemplate cfg.productName
        cfg.companyName).data, specValidChar c = false := by
      have hnot : ¬ ∀ c ∈ (resolveAppIdentifier cfg.appIdentifierTemplate cfg.productName
          cfg.companyName).data, specValidChar c = true := by
        intro h
        have h2 := hiff.mpr h
        rw [hall] at h2
        exact absurd h2 (by decide)
      push_neg at hnot
      obtain ⟨c, hc, hf⟩ := hnot
      refine ⟨c, hc, ?_⟩
      cases hv : specValidChar c
      · rfl
      · exact absurd hv hf
    refine ⟨⟨fun _ => ⟨trivial, by simp, by simp⟩, fun _ => Or.inl hbad⟩, fun _ => trivial⟩

/-- Witness for C5 at the template com!App (no tokens): the resolved
identifier com!app contains the invalid character !, the run fails, and
the trace is exactly the report of the offending string. -/
theorem claimC5_witness :
    (onPostProcess
      { appIdentifierTemplate := "com!App", productName := "P", companyName := "C",
        files := [], rel := fun p => p, skipPackaging := false,
        copyDirectoryFails := false, replaceInFileFails := false,
        fixupExit := fun _ => 0 }).1 =
      [Step.reportInvalidIdentifier "com!app"] :=
  (claimC5_theorem
    { appIdentifierTemplate := "com!App", productName := "P", companyName := "C",
      files := [], rel := fun p => p, skipPackaging := false,
      copyDirectoryFails := false, replaceInFileFails := false,
      fixupExit := fun _ => 0 }).2 ⟨'!', by decide, by decide⟩
